import Mathlib

/-!
Verification of the `icrypto` JWT/key-handling module (`src/icrypto/pulsar-jwt.go`).

Shallow embedding conventions:
* A byte string is a `List Nat` whose elements are the byte values (0..255).
* Go `interface{}` values that can appear as JWT claim values are modelled by
  the inductive `GoVal`, which records the dynamic type of the value
  (`float64`, `int64`, `string`, or the nil interface).  JSON decoding turns
  numbers into `float64`; token timestamps are integral seconds, so the
  numeric payload is carried as an `Int`.
* Wall-clock time is an explicit parameter: `now` is the current instant in
  integer units (nanoseconds where durations matter, seconds where only the
  unix timestamp matters).  Sub-second fractions of the current instant are
  not modelled.
* A Go call that can return normally, return an error, or panic is modelled
  by `GoResult`.
-/

set_option autoImplicit false
set_option maxRecDepth 100000

namespace Icrypto

/-- A byte string: list of byte values `0..255`. -/
abbrev Bytes := List Nat

/-- Models a Go `interface{}` value usable as a JWT claim value / timestamp
argument, keeping track of the dynamic type, which Go type assertions
dispatch on. -/
inductive GoVal where
  | str (s : String)
  | float64 (v : Int)
  | int64 (v : Int)
  | nil
  deriving DecidableEq, Repr

/-- `expireOffset` constant from the source (`expireOffset = 3600`). -/
def expireOffset : Int := 3600

/-- `binary.BigEndian.Uint32` applied to (at least) four bytes. -/
def bigEndianUint32 (data : Bytes) : Nat :=
  match data with
  | b0 :: b1 :: b2 :: b3 :: _ => ((b0 * 256 + b1) * 256 + b2) * 256 + b3
  | _ => 0

/-- The magic-number dispatch of `fileFormat` (source lines 355-369), as a
function of the big-endian `uint32` built from the first four bytes. -/
def fileFormatMagic (magic : Nat) : Except String String :=
  if magic = 0x2D2D2D2D ∨ magic = 0x434F4E4E then
    Except.ok "PEM"
  else if magic &&& 0xFFFF0000 = 0x30820000 then
    if magic &&& 0x0000FF00 = 0x0300 then Except.ok "DER"
    else Except.ok "PKCS12"
  else
    Except.error "undermined format"

/-- `fileFormat` (source lines 343-370): peek the first four bytes of the
file and classify.  A file is modelled by its contents; `reader.Peek(4)`
fails when fewer than four bytes exist. -/
def fileFormat (file : Bytes) : Except String String :=
  if file.length < 4 then Except.error "peek error"
  else fileFormatMagic (bigEndianUint32 file)

/-- The classification rule exactly as claim C1 words it: PEM on the two
exact magics; otherwise DER when both masks match; otherwise PKCS12 when the
top-16-bit mask matches; otherwise the undetermined-format error.  This
definition follows the claim text, to be compared with `fileFormatMagic`,
which follows the source. -/
def fileFormatClaimTable (m : Nat) : Except String String :=
  if m = 0x2D2D2D2D ∨ m = 0x434F4E4E then
    Except.ok "PEM"
  else if m &&& 0xFFFF0000 = 0x30820000 ∧ m &&& 0x0000FF00 = 0x0300 then
    Except.ok "DER"
  else if m &&& 0xFFFF0000 = 0x30820000 then
    Except.ok "PKCS12"
  else
    Except.error "undermined format"

/-- `GetTokenRemainingValidity` (source lines 271-280).  The type assertion
`timestamp.(float64)` succeeds only on a `float64` dynamic type; `now` is the
current unix time in seconds. -/
def GetTokenRemainingValidity (now : Int) (timestamp : GoVal) : Int :=
  match timestamp with
  | GoVal.float64 validity =>
      if 0 < validity - now then (validity - now) + expireOffset
      else expireOffset
  | _ => expireOffset

/-- A JWT claims map (`jwt.MapClaims`), as the association list of claim
names to values. -/
abbrev MapClaims := List (String × GoVal)

/-- First-match lookup in a claims map (Go map indexing; the maps built by
this module have distinct keys). -/
def lookupClaim (claims : MapClaims) (key : String) : Option GoVal :=
  match claims with
  | [] => none
  | (k, v) :: rest => if k = key then some v else lookupClaim rest key

/-- `time.Time.Unix` for an instant measured in nanoseconds since the epoch
(floor division, which is what the seconds+nanoseconds representation
yields). -/
def unixSeconds (t : Int) : Int := Int.ediv t 1000000000

/-- The claims construction of `GenerateToken` (source lines 200-212):
`now` is the current instant in nanoseconds, `timeDuration` a
`time.Duration` in nanoseconds.  The subsequent `SignedString` call signs
exactly this claims map and is independent of its contents, so the claim-set
behaviour is fully captured here. -/
def GenerateToken (now : Int) (userSubject : String) (timeDuration : Int) :
    MapClaims :=
  if 0 < timeDuration then
    [("exp", GoVal.int64 (unixSeconds (now + timeDuration))),
     ("iat", GoVal.int64 (unixSeconds now)),
     ("sub", GoVal.str userSubject)]
  else
    [("sub", GoVal.str userSubject)]

/-- Nanoseconds in a `time.Nanosecond`. -/
def nanosecond : Int := 1

/-- Nanoseconds in a `time.Microsecond`. -/
def microsecond : Int := 1000

/-- Nanoseconds in a `time.Millisecond`. -/
def millisecond : Int := 1000000

/-- Nanoseconds in a `time.Second`. -/
def second : Int := 1000000000

/-- Nanoseconds in a `time.Minute`. -/
def minute : Int := 60 * second

/-- Nanoseconds in a `time.Hour`. -/
def hour : Int := 60 * minute

/-- Reduce an integer to the `int64` value it denotes under Go wrap-around
arithmetic (the `time.Duration` multiplications in
`ValidateDurationPeriod` can wrap for huge counts). -/
def toInt64 (x : Int) : Int := (x + 2 ^ 63) % 2 ^ 64 - 2 ^ 63

/-- Is the character one of `1`..`9`. -/
def isNonzeroDigit (c : Char) : Bool := 49 ≤ c.toNat && c.toNat ≤ 57

/-- Anchored match of the regex `[1-9][0-9]*X` for a suffix character `X`
(the `day`/`year` patterns of source lines 463-464). -/
def matchesNumWithSuffix (s : String) (suffix : Char) : Bool :=
  match s.data with
  | [] => false
  | c0 :: rest =>
      isNonzeroDigit c0 && !rest.isEmpty && rest.dropLast.all Char.isDigit
        && (rest.getLast? == some suffix)

/-- Models `strconv.Atoi` on an all-digit string: its numeric value, or
`none` when the value overflows the `int64` range (the only failure mode
reachable from a regex-matched duration). -/
def atoiDigits (cs : List Char) : Option Int :=
  let n : Int := cs.foldl (fun acc c => acc * 10 + ((c.toNat : Int) - 48)) 0
  if n < 2 ^ 63 then some n else none

/-- `ValidateDurationPeriod` (source lines 462-477): the day suffix grammar
is tried first, then the year suffix grammar (365-day years); anything else
is the invalid-duration error.  A regex match whose `Atoi` overflows falls
through to the same error, exactly as the source control flow does. -/
def ValidateDurationPeriod (duration : String) : Except String Int :=
  if matchesNumWithSuffix duration 'd' then
    match atoiDigits duration.data.dropLast with
    | some n => Except.ok (toInt64 (n * 24 * hour))
    | none => Except.error ("invalid duration " ++ duration)
  else if matchesNumWithSuffix duration 'y' then
    match atoiDigits duration.data.dropLast with
    | some n => Except.ok (toInt64 (n * 365 * 24 * hour))
    | none => Except.error ("invalid duration " ++ duration)
  else Except.error ("invalid duration " ++ duration)

/-- The unit table of Go `time.ParseDuration`. -/
def unitMap (u : String) : Option Int :=
  if u = "ns" then some nanosecond
  else if u = "us" then some microsecond
  else if u = "µs" then some microsecond
  else if u = "μs" then some microsecond
  else if u = "ms" then some millisecond
  else if u = "s" then some second
  else if u = "m" then some minute
  else if u = "h" then some hour
  else none

/-- The `leadingInt` helper of `time.ParseDuration`: consume leading digits,
returning the value and remainder, or `none` on int64 overflow. -/
def leadingIntAux (acc : Int) : List Char → Option (Int × List Char)
  | [] => some (acc, [])
  | c :: rest =>
      if c.isDigit then
        if acc > (2 ^ 63 - 1) / 10 then none
        else
          let x := acc * 10 + ((c.toNat : Int) - 48)
          if x > 2 ^ 63 - 1 then none
          else leadingIntAux x rest
      else some (acc, c :: rest)

/-- The `leadingFraction` helper of `time.ParseDuration`: consume digits
after the decimal point, returning value, scale (a power of ten) and
remainder; on overflow further digits are consumed but ignored. -/
def leadingFractionAux (f : Int) (scale : Int) (overflow : Bool) :
    List Char → Int × Int × List Char
  | [] => (f, scale, [])
  | c :: rest =>
      if c.isDigit then
        if overflow then leadingFractionAux f scale true rest
        else if f > (2 ^ 63 - 1) / 10 then leadingFractionAux f scale true rest
        else
          let y := f * 10 + ((c.toNat : Int) - 48)
          if y > 2 ^ 63 - 1 then leadingFractionAux f scale true rest
          else leadingFractionAux y (scale * 10) false rest
      else (f, scale, c :: rest)

/-- One pass of the `time.ParseDuration` main loop plus its recursion,
driven by fuel (each iteration consumes at least one character, so fuel
equal to the length suffices).  The fractional contribution is computed
with exact integer arithmetic, where Go goes through `float64`; the two
agree on every input without a fractional part, which covers all inputs
this module ever produces.  `d` is the accumulated duration in
nanoseconds. -/
def parseDurationLoop (fuel : Nat) (d : Int) (cs : List Char) : Option Int :=
  match fuel with
  | 0 => none
  | Nat.succ fuel =>
    match cs with
    | [] => some d
    | c :: _ =>
      if !(c == '.' || c.isDigit) then none
      else
        match leadingIntAux 0 cs with
        | none => none
        | some (v0, s1) =>
          let pre := decide (s1.length ≠ cs.length)
          let fps :=
            match s1 with
            | '.' :: s1tail =>
                let fsr := leadingFractionAux 0 1 false s1tail
                (fsr.1, fsr.2.1, fsr.2.2, decide (fsr.2.2.length ≠ s1tail.length))
            | _ => (0, 1, s1, false)
          let f := fps.1
          let scale := fps.2.1
          let s2 := fps.2.2.1
          let post := fps.2.2.2
          if !pre && !post then none
          else
            let unitChars := s2.takeWhile (fun c => !(c == '.' || c.isDigit))
            let s3 := s2.dropWhile (fun c => !(c == '.' || c.isDigit))
            if unitChars.isEmpty then none
            else
              match unitMap (String.mk unitChars) with
              | none => none
              | some unit =>
                if v0 > 2 ^ 63 / unit then none
                else
                  let v1 := v0 * unit
                  let v2 := if f > 0 then v1 + (f * unit) / scale else v1
                  if v2 > 2 ^ 63 then none
                  else
                    let d2 := d + v2
                    if d2 > 2 ^ 63 then none
                    else parseDurationLoop fuel d2 s3

/-- Models Go `time.ParseDuration` (the general duration grammar
`[-+]?([0-9]*(\.[0-9]*)?[a-z]+)+`).  All of Go's distinct failure messages
(invalid duration, missing unit, unknown unit, overflow) are collapsed into
one error value; the module under verification never inspects the message. -/
def parseDuration (s : String) : Except String Int :=
  let cs := s.data
  let signAndRest :=
    match cs with
    | '-' :: rest => (true, rest)
    | '+' :: rest => (false, rest)
    | _ => (false, cs)
  let neg := signAndRest.1
  let cs1 := signAndRest.2
  if cs1 = ['0'] then Except.ok 0
  else if cs1 = [] then Except.error ("time: invalid duration " ++ s)
  else
    match parseDurationLoop (cs1.length + 1) 0 cs1 with
    | none => Except.error ("time: invalid duration " ++ s)
    | some d =>
        if neg then Except.ok (-d)
        else if d > 2 ^ 63 - 1 then
          Except.error ("time: invalid duration " ++ s)
        else Except.ok d

/-- ASCII lowercasing of one character (`strings.ToLower`; every string the
module lowercases is ASCII). -/
def lowerChar (c : Char) : Char :=
  if 65 ≤ c.toNat ∧ c.toNat ≤ 90 then Char.ofNat (c.toNat + 32) else c

/-- `strings.ToLower` on an ASCII string. -/
def lowerString (s : String) : String := String.mk (s.data.map lowerChar)

/-- Whitespace as recognized by `strings.TrimSpace`. -/
def isSpaceChar (c : Char) : Bool :=
  c == ' ' || c == '\t' || c == '\n' || c == '\r' || c == '\x0b' || c == '\x0c'

/-- `strings.TrimSpace`. -/
def trimString (s : String) : String :=
  String.mk
    (((s.data.dropWhile isSpaceChar).reverse.dropWhile isSpaceChar).reverse)

/-- The JWT signing methods of `SigMethod` (source lines 408-439); `none`
models `jwt.SigningMethodNone`. -/
inductive SigningMethod where
  | RS256 | RS384 | RS512
  | HS256 | HS384 | HS512
  | ES256 | ES384 | ES512
  | PS256 | PS384 | PS512
  | none
  deriving DecidableEq, Repr

/-- `SigMethod` (source lines 408-439): case-insensitive algorithm-name
lookup; unknown names give the Go `nil`, modelled as `Option.none`. -/
def SigMethod (algo : String) : Option SigningMethod :=
  match lowerString algo with
  | "rs256" => some SigningMethod.RS256
  | "rs384" => some SigningMethod.RS384
  | "rs512" => some SigningMethod.RS512
  | "hs256" => some SigningMethod.HS256
  | "hs384" => some SigningMethod.HS384
  | "hs512" => some SigningMethod.HS512
  | "es256" => some SigningMethod.ES256
  | "es384" => some SigningMethod.ES384
  | "es512" => some SigningMethod.ES512
  | "ps256" => some SigningMethod.PS256
  | "ps384" => some SigningMethod.PS384
  | "ps512" => some SigningMethod.PS512
  | "none" => some SigningMethod.none
  | _ => Option.none

/-- `ValidateClaims` (source lines 442-457): lowercase and trim the duration
string, try the day/year suffix grammar, fall back to `time.ParseDuration`,
then resolve the signing method. -/
def ValidateClaims (expiryDuration signingMethod : String) :
    Except String (Int × SigningMethod) :=
  let dur := trimString (lowerString expiryDuration)
  let durResult :=
    match ValidateDurationPeriod dur with
    | Except.ok d => Except.ok d
    | Except.error _ => parseDuration dur
  match durResult with
  | Except.error e => Except.error e
  | Except.ok d =>
      match SigMethod signingMethod with
      | some m => Except.ok (d, m)
      | Option.none =>
          Except.error ("invalid JWT signing method " ++ signingMethod)

/-- Outcome of a Go call that can return a value, return an error, or
panic. -/
inductive GoResult (α : Type) where
  | ok (a : α)
  | err (msg : String)
  | panicked
  deriving DecidableEq, Repr

/-- The result of `jwt.Parse` on a token string against the key pair public
key: the decoded claims map (`jwt.MapClaims`) and the outcome of the
signature/structure check (`token.Valid`).  A string that fails parsing
outright is modelled with `valid = false`: `DecodeToken` returns an error
in both cases. -/
structure Token where
  claims : MapClaims
  valid : Bool
  deriving DecidableEq, Repr

/-- `DecodeToken` (source lines 221-235): parse and verify; any parse or
validation failure is an error return. -/
def DecodeToken (token : Token) : Except String Token :=
  if token.valid then Except.ok token else Except.error "invalid token"

/-- `GetTokenSubject` (source lines 240-251).  The `sub` lookup follows Go
map indexing; when the key is present the value is unconditionally
type-asserted to `string` (`subjects.(string)`), which panics on a value of
any other dynamic type. -/
def GetTokenSubject (token : Token) : GoResult String :=
  match DecodeToken token with
  | Except.error e => GoResult.err e
  | Except.ok tok =>
      match lookupClaim tok.claims "sub" with
      | some (GoVal.str s) => GoResult.ok s
      | some _ => GoResult.panicked
      | none => GoResult.err "missing subjects"

/-- The bytes of an ASCII string. -/
def strBytes (s : String) : Bytes := s.data.map Char.toNat

/-- The standard base64 alphabet (`A-Z a-z 0-9 + /`), as byte values. -/
def base64Alphabet : Bytes :=
  (List.range 26).map (fun i => 65 + i) ++
    (List.range 26).map (fun i => 97 + i) ++
    (List.range 10).map (fun i => 48 + i) ++ [43, 47]

/-- The alphabet byte for a 6-bit group. -/
def base64Chr (i : Nat) : Nat := base64Alphabet.getD i 0

/-- `base64.StdEncoding` encoding (RFC 4648 with `=` padding). -/
def base64Encode : Bytes → Bytes
  | b0 :: b1 :: b2 :: rest =>
      let n := (b0 * 256 + b1) * 256 + b2
      base64Chr (n / 262144 % 64) :: base64Chr (n / 4096 % 64) ::
        base64Chr (n / 64 % 64) :: base64Chr (n % 64) :: base64Encode rest
  | [b0, b1] =>
      let n := (b0 * 256 + b1) * 256
      [base64Chr (n / 262144 % 64), base64Chr (n / 4096 % 64),
       base64Chr (n / 64 % 64), 61]
  | [b0] =>
      let n := b0 * 65536
      [base64Chr (n / 262144 % 64), base64Chr (n / 4096 % 64), 61, 61]
  | [] => []

/-- The 6-bit value of a base64 alphabet byte. -/
def base64Val (c : Nat) : Option Nat :=
  if 65 ≤ c ∧ c ≤ 90 then some (c - 65)
  else if 97 ≤ c ∧ c ≤ 122 then some (c - 71)
  else if 48 ≤ c ∧ c ≤ 57 then some (c + 4)
  else if c = 43 then some 62
  else if c = 47 then some 63
  else none

/-- `base64.StdEncoding` decoding: quartets of alphabet bytes with `=`
padding on the final quartet only (like Go's default decoder, trailing
padding bits are not checked). -/
def base64Decode : Bytes → Option Bytes
  | [] => some []
  | c0 :: c1 :: c2 :: c3 :: rest =>
      match base64Val c0, base64Val c1 with
      | some v0, some v1 =>
          if c2 = 61 ∧ c3 = 61 ∧ rest = [] then
            some [v0 * 4 + v1 / 16]
          else
            match base64Val c2 with
            | some v2 =>
                if c3 = 61 ∧ rest = [] then
                  some [v0 * 4 + v1 / 16, v1 % 16 * 16 + v2 / 4]
                else
                  match base64Val c3 with
                  | some v3 =>
                      match base64Decode rest with
                      | some bs =>
                          some ((v0 * 4 + v1 / 16) :: (v1 % 16 * 16 + v2 / 4) ::
                            (v2 % 4 * 64 + v3) :: bs)
                      | none => none
                  | none => none
            | none => none
      | _, _ => none
  | _ => none

/-- Split a byte string into lines at newline bytes (accumulator holds the
current line reversed). -/
def splitLinesAux : Bytes → Bytes → List Bytes
  | cur, [] => [cur.reverse]
  | cur, 10 :: rest => cur.reverse :: splitLinesAux [] rest
  | cur, b :: rest => splitLinesAux (b :: cur) rest

/-- Strip one trailing carriage return from a line. -/
def stripCR (line : Bytes) : Bytes :=
  match line.reverse with
  | 13 :: rest => rest.reverse
  | _ => line

/-- Lines of a byte string, `\r\n`-tolerant. -/
def splitLines (bs : Bytes) : List Bytes := (splitLinesAux [] bs).map stripCR

/-- The bytes of `-----BEGIN `. -/
def beginMarker : Bytes := strBytes "-----BEGIN "

/-- The bytes of `-----END `. -/
def endMarker : Bytes := strBytes "-----END "

/-- The bytes of `-----`. -/
def fiveDashes : Bytes := strBytes "-----"

/-- Whether a line is `-----BEGIN <type>-----`. -/
def isBeginLine (line : Bytes) : Bool :=
  beginMarker.isPrefixOf line && fiveDashes.isSuffixOf (line.drop 11)

/-- The `<type>` of a begin line. -/
def beginLineType (line : Bytes) : Bytes :=
  (line.drop 11).take ((line.drop 11).length - 5)

/-- The body lines strictly before the first occurrence of `endLine`, or
`none` when `endLine` never occurs. -/
def bodyBeforeEnd (endLine : Bytes) : List Bytes → Option (List Bytes)
  | [] => none
  | l :: rest =>
      if l = endLine then some []
      else (bodyBeforeEnd endLine rest).map (fun ls => l :: ls)

/-- Models `encoding/pem.Decode` on the line structure: find the first
`-----BEGIN <type>-----` line, collect the body up to the matching
`-----END <type>-----` line, and base64-decode the body; `none` when the
input contains no such block.  (Go additionally rescans after a malformed
candidate block; the claims only concern inputs where no block exists at
all, on which both return no block.) -/
def pemDecodeLines : List Bytes → Option Bytes
  | [] => none
  | line :: rest =>
      if isBeginLine line then
        let endLine := endMarker ++ beginLineType line ++ fiveDashes
        match bodyBeforeEnd endLine rest with
        | none => none
        | some body => base64Decode (body.foldr (fun l acc => l ++ acc) [])
      else pemDecodeLines rest

/-- `pem.Decode` on raw file contents: the DER payload of the first PEM
block, or `none` when the file contains no PEM block. -/
def pemDecode (content : Bytes) : Option Bytes :=
  pemDecodeLines (splitLines content)

/-- `decodePEM` (source lines 294-309): read the file, `pem.Decode` it and
return `data.Bytes`.  The nil-block case of `pem.Decode` is not checked, so
a file with no PEM block hits a nil-pointer dereference at `data.Bytes`:
a panic, not an error return. -/
def decodePEM (content : Bytes) : GoResult Bytes :=
  match pemDecode content with
  | some bytes => GoResult.ok bytes
  | none => GoResult.panicked

/-- Whether `data` is exactly one definite-length DER `SEQUENCE`: tag
`0x30`, a minimally-encoded length, and a body of exactly that length.
Every input that Go `x509.ParsePKCS8PrivateKey` / `ParsePKIXPublicKey`
accepts has this outer shape, and the canonical DER encodings of RSA keys
satisfy it.  The ASN.1 body is not re-parsed: in this embedding a key is
carried as its canonical encoding, so this check is the model's acceptance
test (a superset of Go's: rejection here transfers to Go rejection, and
acceptance abstracts the parse of a valid key). -/
def derWholeSequence (data : Bytes) : Bool :=
  match data with
  | 48 :: l :: rest =>
      if l < 128 then rest.length == l
      else if l == 129 then
        match rest with
        | n :: rest2 => decide (128 ≤ n) && rest2.length == n
        | [] => false
      else if l == 130 then
        match rest with
        | n1 :: n2 :: rest2 =>
            decide (256 ≤ n1 * 256 + n2) && rest2.length == n1 * 256 + n2
        | _ => false
      else if l == 131 then
        match rest with
        | n1 :: n2 :: n3 :: rest2 =>
            decide (65536 ≤ (n1 * 256 + n2) * 256 + n3) &&
              rest2.length == (n1 * 256 + n2) * 256 + n3
        | _ => false
      else if l == 132 then
        match rest with
        | n1 :: n2 :: n3 :: n4 :: rest2 =>
            decide (16777216 ≤ ((n1 * 256 + n2) * 256 + n3) * 256 + n4) &&
              rest2.length == ((n1 * 256 + n2) * 256 + n3) * 256 + n4
        | _ => false
      else false
  | _ => false

/-- A Go `*rsa.PrivateKey`, modelled by its canonical PKCS8 DER encoding. -/
structure RsaPrivateKey where
  pkcs8 : Bytes
  deriving DecidableEq, Repr

/-- A Go `*rsa.PublicKey`, modelled by its canonical PKIX DER encoding. -/
structure RsaPublicKey where
  pkix : Bytes
  deriving DecidableEq, Repr

/-- `ParseX509PKCS8PrivateKey` (source lines 312-324): `x509` PKCS8 parsing
plus the `*rsa.PrivateKey` type check, on the key-as-encoding model. -/
def ParseX509PKCS8PrivateKey (data : Bytes) : Except String RsaPrivateKey :=
  if derWholeSequence data then Except.ok ⟨data⟩
  else Except.error "asn1: structure error"

/-- `ParseX509PKIXPublicKey` (source lines 327-339): `x509` PKIX parsing
plus the `*rsa.PublicKey` type check, on the key-as-encoding model. -/
def ParseX509PKIXPublicKey (data : Bytes) : Except String RsaPublicKey :=
  if derWholeSequence data then Except.ok ⟨data⟩
  else Except.error "asn1: structure error"

/-- `x509.MarshalPKCS8PrivateKey`: the canonical encoding of the key (which
is how this embedding carries the key; marshalling a valid in-memory key
never fails). -/
def MarshalPKCS8PrivateKey (k : RsaPrivateKey) : Bytes := k.pkcs8

/-- `x509.MarshalPKIXPublicKey`: the canonical encoding of the key. -/
def MarshalPKIXPublicKey (k : RsaPublicKey) : Bytes := k.pkix

/-- `RSAKeyPair` (source lines 47-52). -/
structure RSAKeyPair where
  PrivateKey : RsaPrivateKey
  PublicKey : RsaPublicKey
  PrivateKeyPKCS8Bytes : Bytes
  PublicKeyPKIXBytes : Bytes
  deriving DecidableEq, Repr

/-- `newRSAKeyPair` (source lines 106-122): the serialized fields are
produced by marshalling the two key objects. -/
def newRSAKeyPair (privateKey : RsaPrivateKey) (publicKey : RsaPublicKey) :
    Except String RSAKeyPair :=
  Except.ok
    { PrivateKey := privateKey
      PublicKey := publicKey
      PrivateKeyPKCS8Bytes := MarshalPKCS8PrivateKey privateKey
      PublicKeyPKIXBytes := MarshalPKIXPublicKey publicKey }

/-- `NewRSAKeyPair` (source lines 63-76), with the random generation
externalized: the freshly generated, validated private key and its embedded
public key are inputs of the model. -/
def NewRSAKeyPair (privateKey : RsaPrivateKey) (publicKey : RsaPublicKey) :
    Except String RSAKeyPair :=
  newRSAKeyPair privateKey publicKey

/-- `LoadRSAKeyPairFromBase64` (source lines 93-104): each input slice is
handed to the DER parser exactly as received — the source performs no
base64 decoding on either argument. -/
def LoadRSAKeyPairFromBase64 (privateKeyBase64 publicKeyBase64 : Bytes) :
    Except String RSAKeyPair :=
  match ParseX509PKCS8PrivateKey privateKeyBase64 with
  | Except.error e => Except.error e
  | Except.ok priv =>
      match ParseX509PKIXPublicKey publicKeyBase64 with
      | Except.error e => Except.error e
      | Except.ok pub => newRSAKeyPair priv pub

/-- `readPK12` (source lines 283-291): returns the raw file bytes. -/
def readPK12 (file : Bytes) : Bytes := file

/-- `getDataFromKeyFile` (source lines 372-387): classify, then dispatch.
The switch has cases for `PEM` and `PKCS12` only; every other
classification — including `DER` — falls to the default branch and is an
unsupported-format error. -/
def getDataFromKeyFile (file : Bytes) : GoResult Bytes :=
  match fileFormat file with
  | Except.error e => GoResult.err e
  | Except.ok format =>
      if format = "PEM" then decodePEM file
      else if format = "PKCS12" then GoResult.ok (readPK12 file)
      else GoResult.err "unsupported format"

/-- `getPrivateKey` (source lines 389-396). -/
def getPrivateKey (file : Bytes) : GoResult RsaPrivateKey :=
  match getDataFromKeyFile file with
  | GoResult.ok data =>
      match ParseX509PKCS8PrivateKey data with
      | Except.ok k => GoResult.ok k
      | Except.error e => GoResult.err e
  | GoResult.err e => GoResult.err e
  | GoResult.panicked => GoResult.panicked

/-- `getPublicKey` (source lines 398-405). -/
def getPublicKey (file : Bytes) : GoResult RsaPublicKey :=
  match getDataFromKeyFile file with
  | GoResult.ok data =>
      match ParseX509PKIXPublicKey data with
      | Except.ok k => GoResult.ok k
      | Except.error e => GoResult.err e
  | GoResult.err e => GoResult.err e
  | GoResult.panicked => GoResult.panicked

/-- `LoadRSAKeyPair` (source lines 79-90); a file path is identified with
the contents of the file it names. -/
def LoadRSAKeyPair (privateKeyPath publicKeyPath : Bytes) :
    GoResult RSAKeyPair :=
  match getPrivateKey privateKeyPath with
  | GoResult.err e => GoResult.err e
  | GoResult.panicked => GoResult.panicked
  | GoResult.ok priv =>
      match getPublicKey publicKeyPath with
      | GoResult.err e => GoResult.err e
      | GoResult.panicked => GoResult.panicked
      | GoResult.ok pub =>
          match newRSAKeyPair priv pub with
          | Except.ok kp => GoResult.ok kp
          | Except.error e => GoResult.err e

/-- A stand-in canonical PKCS8 private-key encoding: one whole DER
`SEQUENCE` with 256 content bytes (real encodings have this outer shape
with key-dependent content). -/
def samplePrivDER : Bytes := 48 :: 130 :: 1 :: 0 :: List.replicate 256 0

/-- A stand-in canonical PKIX public-key encoding: one whole DER `SEQUENCE`
with 260 content bytes. -/
def samplePubDER : Bytes := 48 :: 130 :: 1 :: 4 :: List.replicate 260 1

/-- A file whose first four bytes `30 82 03 00` classify as DER. -/
def sampleDERFile : Bytes := 48 :: 130 :: 3 :: 0 :: List.replicate 764 0

end Icrypto

namespace Icrypto

/-- Claim C1: `fileFormat` agrees everywhere with the rule table stated in
the claim (PEM on the two exact magics, else DER when both masks match, else
PKCS12 on the top-16-bit mask, else the undetermined-format error), and in
particular bytes `30 82 03 00` classify as DER while `30 82 01 02` classify
as PKCS12. -/
theorem fileFormat_matches_claim_table :
    (∀ m : Nat, fileFormatMagic m = fileFormatClaimTable m) ∧
    fileFormat [0x30, 0x82, 0x03, 0x00] = Except.ok "DER" ∧
    fileFormat [0x30, 0x82, 0x01, 0x02] = Except.ok "PKCS12" := by
  refine ⟨fun m => ?_, rfl, rfl⟩
  unfold fileFormatMagic fileFormatClaimTable
  split_ifs <;> simp_all

/-- Claim C2: when the expiry value has numeric (`float64`) type and lies
strictly in the future, the remaining validity is
`max (expiry - now) 0 + 3600`; when it is in the past, non-numeric, or
missing, the result is exactly `3600`; the result is always positive. -/
theorem getTokenRemainingValidity_spec (now : Int) (ts : GoVal) :
    (∀ v, ts = GoVal.float64 v → now < v →
        GetTokenRemainingValidity now ts = max (v - now) 0 + 3600) ∧
    (∀ v, ts = GoVal.float64 v → v ≤ now →
        GetTokenRemainingValidity now ts = 3600) ∧
    ((∀ v, ts ≠ GoVal.float64 v) → GetTokenRemainingValidity now ts = 3600) ∧
    0 < GetTokenRemainingValidity now ts := by
  refine ⟨?_, ?_, ?_, ?_⟩
  · rintro v rfl h
    simp only [GetTokenRemainingValidity, expireOffset]
    rw [if_pos (by omega)]
    omega
  · rintro v rfl h
    simp only [GetTokenRemainingValidity, expireOffset]
    rw [if_neg (by omega)]
  · intro h
    cases ts with
    | float64 v => exact absurd rfl (h v)
    | str s => rfl
    | int64 v => rfl
    | nil => rfl
  · cases ts with
    | float64 v =>
        simp only [GetTokenRemainingValidity, expireOffset]
        split <;> omega
    | str s => show (0 : Int) < 3600; decide
    | int64 v => show (0 : Int) < 3600; decide
    | nil => show (0 : Int) < 3600; decide

/-- Witness for C2 at a concrete input: expiry 100 seconds in the future. -/
theorem getTokenRemainingValidity_spec_witness :
    GetTokenRemainingValidity 1000 (GoVal.float64 1100) =
      max (1100 - 1000) 0 + 3600 :=
  (getTokenRemainingValidity_spec 1000 (GoVal.float64 1100)).1 1100 rfl
    (by decide)

/-- Claim C10: an expiry value whose dynamic type is `int64` fails the
`float64` type assertion, so the function returns exactly the 3600-second
grace offset no matter how far in the future the value lies — the same
result as for a missing expiry. -/
theorem getTokenRemainingValidity_int64 (now v : Int) :
    GetTokenRemainingValidity now (GoVal.int64 v) = 3600 ∧
    GetTokenRemainingValidity now (GoVal.int64 v) =
      GetTokenRemainingValidity now GoVal.nil := by
  exact ⟨rfl, rfl⟩

/-- Claim C5: with a positive duration the generated claim set is exactly
`{exp = now + d, iat = now, sub = s}` (timestamps in unix seconds); with a
non-positive duration it is exactly `{sub = s}`, with no `iat` and no `exp`
claim. -/
theorem generateToken_claim_set (now : Int) (s : String) (d : Int) :
    (0 < d → GenerateToken now s d =
        [("exp", GoVal.int64 (unixSeconds (now + d))),
         ("iat", GoVal.int64 (unixSeconds now)),
         ("sub", GoVal.str s)] ∧
      lookupClaim (GenerateToken now s d) "sub" = some (GoVal.str s) ∧
      lookupClaim (GenerateToken now s d) "iat" =
        some (GoVal.int64 (unixSeconds now)) ∧
      lookupClaim (GenerateToken now s d) "exp" =
        some (GoVal.int64 (unixSeconds (now + d)))) ∧
    (d ≤ 0 → GenerateToken now s d = [("sub", GoVal.str s)] ∧
      lookupClaim (GenerateToken now s d) "sub" = some (GoVal.str s) ∧
      lookupClaim (GenerateToken now s d) "iat" = none ∧
      lookupClaim (GenerateToken now s d) "exp" = none) := by
  constructor
  · intro h
    simp only [GenerateToken, if_pos h]
    refine ⟨trivial, ?_, ?_, ?_⟩ <;> simp [lookupClaim]
  · intro h
    simp only [GenerateToken, if_neg (by omega : ¬ 0 < d)]
    refine ⟨trivial, ?_, ?_, ?_⟩ <;> simp [lookupClaim]

/-- Claim C6: the suffix grammar is tried first and the general grammar is
the fallback: `7d` parses to 168 hours and `2y` to 17520 hours via the
suffix grammar; `90m` fails the suffix grammar but parses to 90 minutes via
the general grammar; `abc` matches neither grammar and is an
invalid-duration error. -/
theorem duration_grammar_examples :
    ValidateDurationPeriod "7d" = Except.ok (168 * hour) ∧
    ValidateDurationPeriod "2y" = Except.ok (17520 * hour) ∧
    ValidateDurationPeriod "90m" = Except.error "invalid duration 90m" ∧
    parseDuration "90m" = Except.ok (90 * minute) ∧
    ValidateClaims "90m" "rs256" =
      Except.ok (90 * minute, SigningMethod.RS256) ∧
    ValidateClaims "abc" "rs256" =
      Except.error "time: invalid duration abc" ∧
    ValidateClaims "7d" "rs256" =
      Except.ok (168 * hour, SigningMethod.RS256) := by
  exact ⟨rfl, rfl, rfl, rfl, rfl, rfl, rfl⟩

/-- Witness for C5: subject `svc1` with a 5-second duration and with a zero
duration. -/
theorem generateToken_claim_set_witness :
    lookupClaim (GenerateToken 0 "svc1" 5000000000) "exp" =
        some (GoVal.int64 5) ∧
    GenerateToken 0 "svc1" 0 = [("sub", GoVal.str "svc1")] :=
  ⟨((generateToken_claim_set 0 "svc1" 5000000000).1 (by decide)).2.2.2,
   ((generateToken_claim_set 0 "svc1" 0).2 (by decide)).1⟩

/-- Counterexample to claim C7 as stated: a token that verifies
successfully and carries a numeric `sub` claim does not produce an error
result — the unchecked type assertion `subjects.(string)` panics. -/
theorem getTokenSubject_nonstring_crashes :
    GetTokenSubject ⟨[("sub", GoVal.float64 42)], true⟩ =
        GoResult.panicked ∧
    GetTokenSubject ⟨[("sub", GoVal.float64 42)], true⟩ ≠
        GoResult.err "missing subjects" := by
  exact ⟨rfl, by decide⟩

/-- Claim C7 as amended: for every token that verifies successfully, an
absent `sub` claim yields the missing-subjects error result; a `sub` claim
of string type is returned; a `sub` claim of any non-string type makes the
function panic on the failed type assertion rather than return an error. -/
theorem getTokenSubject_spec (t : Token) (hv : t.valid = true) :
    (lookupClaim t.claims "sub" = none →
        GetTokenSubject t = GoResult.err "missing subjects") ∧
    (∀ s, lookupClaim t.claims "sub" = some (GoVal.str s) →
        GetTokenSubject t = GoResult.ok s) ∧
    (∀ v, lookupClaim t.claims "sub" = some v → (∀ s, v ≠ GoVal.str s) →
        GetTokenSubject t = GoResult.panicked) := by
  have hd : DecodeToken t = Except.ok t := by
    simp [DecodeToken, hv]
  refine ⟨?_, ?_, ?_⟩
  · intro h
    simp [GetTokenSubject, hd, h]
  · intro s h
    simp [GetTokenSubject, hd, h]
  · intro v h hne
    cases v with
    | str s => exact absurd rfl (hne s)
    | float64 x => simp [GetTokenSubject, hd, h]
    | int64 x => simp [GetTokenSubject, hd, h]
    | nil => simp [GetTokenSubject, hd, h]

/-- Witness for the amended C7: a valid token without a `sub` claim gets
the missing-subjects error. -/
theorem getTokenSubject_spec_witness :
    GetTokenSubject ⟨[("iat", GoVal.int64 0)], true⟩ =
        GoResult.err "missing subjects" :=
  (getTokenSubject_spec ⟨[("iat", GoVal.int64 0)], true⟩ rfl).1 rfl

/-- Claim C8: evaluated at a failing input.  The file `----x` is classified
PEM by the format detector but contains no PEM block, and `decodePEM`
panics on it (nil-pointer dereference at `data.Bytes`) instead of
returning an error; in general every content on which `pem.Decode` finds
no block makes `decodePEM` panic. -/
theorem decodePEM_no_block_panics :
    decodePEM (strBytes "----x") = GoResult.panicked ∧
    fileFormat (strBytes "----x") = Except.ok "PEM" ∧
    (∀ content : Bytes, pemDecode content = none →
        decodePEM content = GoResult.panicked) := by
  refine ⟨rfl, rfl, fun content h => ?_⟩
  simp [decodePEM, h]

/-- Witness for C8: another blockless content, discharged through the
universally quantified part. -/
theorem decodePEM_no_block_panics_witness :
    decodePEM (strBytes "hello") = GoResult.panicked :=
  decodePEM_no_block_panics.2.2 (strBytes "hello") rfl

/-- Claim C3: evaluated at the failing input.  Base64-encoding the two
canonical DER encodings and passing the results to
`LoadRSAKeyPairFromBase64` fails — the source never base64-decodes its
arguments, so the base64 text reaches the DER parser and is rejected —
while passing the raw DER bytes directly succeeds and yields the key pair
whose serialized fields are those bytes. -/
theorem loadFromBase64_does_not_decode :
    LoadRSAKeyPairFromBase64 (base64Encode samplePrivDER)
        (base64Encode samplePubDER) =
      Except.error "asn1: structure error" ∧
    LoadRSAKeyPairFromBase64 samplePrivDER samplePubDER =
      Except.ok
        { PrivateKey := ⟨samplePrivDER⟩
          PublicKey := ⟨samplePubDER⟩
          PrivateKeyPKCS8Bytes := samplePrivDER
          PublicKeyPKIXBytes := samplePubDER } := by
  exact ⟨rfl, rfl⟩

/-- Claim C4: evaluated at the failing input.  A file whose first four
bytes classify as DER does not reach the key codec: `getDataFromKeyFile`
has switch cases only for PEM and PKCS12, so the DER classification falls
to the default branch and `LoadRSAKeyPair` reports the unsupported-format
error. -/
theorem derFile_unsupported :
    fileFormat sampleDERFile = Except.ok "DER" ∧
    getDataFromKeyFile sampleDERFile = GoResult.err "unsupported format" ∧
    LoadRSAKeyPair sampleDERFile sampleDERFile =
      GoResult.err "unsupported format" := by
  exact ⟨rfl, rfl, rfl⟩

/-- Claim C9: every key pair produced by `NewRSAKeyPair`,
`LoadRSAKeyPairFromBase64` or `LoadRSAKeyPair` has its serialized byte
fields equal to the marshalling of its in-memory key objects (they are
derived from the key objects inside `newRSAKeyPair` at construction
time). -/
theorem keyPair_serialized_invariant (priv : RsaPrivateKey)
    (pub : RsaPublicKey) (p q f g : Bytes) (kp : RSAKeyPair) :
    (NewRSAKeyPair priv pub = Except.ok kp →
        kp.PrivateKeyPKCS8Bytes = MarshalPKCS8PrivateKey kp.PrivateKey ∧
        kp.PublicKeyPKIXBytes = MarshalPKIXPublicKey kp.PublicKey) ∧
    (LoadRSAKeyPairFromBase64 p q = Except.ok kp →
        kp.PrivateKeyPKCS8Bytes = MarshalPKCS8PrivateKey kp.PrivateKey ∧
        kp.PublicKeyPKIXBytes = MarshalPKIXPublicKey kp.PublicKey) ∧
    (LoadRSAKeyPair f g = GoResult.ok kp →
        kp.PrivateKeyPKCS8Bytes = MarshalPKCS8PrivateKey kp.PrivateKey ∧
        kp.PublicKeyPKIXBytes = MarshalPKIXPublicKey kp.PublicKey) := by
  refine ⟨?_, ?_, ?_⟩
  · intro h
    simp only [NewRSAKeyPair, newRSAKeyPair, Except.ok.injEq] at h
    subst h
    exact ⟨rfl, rfl⟩
  · intro h
    simp only [LoadRSAKeyPairFromBase64] at h
    cases hp : ParseX509PKCS8PrivateKey p with
    | error e => simp only [hp] at h; exact Except.noConfusion h
    | ok a =>
        simp only [hp] at h
        cases hq : ParseX509PKIXPublicKey q with
        | error e => simp only [hq] at h; exact Except.noConfusion h
        | ok b =>
            simp only [hq, newRSAKeyPair, Except.ok.injEq] at h
            subst h
            exact ⟨rfl, rfl⟩
  · intro h
    simp only [LoadRSAKeyPair] at h
    cases hp : getPrivateKey f with
    | err e => simp only [hp] at h; exact GoResult.noConfusion h
    | panicked => simp only [hp] at h; exact GoResult.noConfusion h
    | ok a =>
        simp only [hp] at h
        cases hq : getPublicKey g with
        | err e => simp only [hq] at h; exact GoResult.noConfusion h
        | panicked => simp only [hq] at h; exact GoResult.noConfusion h
        | ok b =>
            simp only [hq, newRSAKeyPair, GoResult.ok.injEq] at h
            subst h
            exact ⟨rfl, rfl⟩

/-- Witness for C9: the invariant at a concretely constructed pair. -/
theorem keyPair_serialized_invariant_witness :
    ({ PrivateKey := ⟨[48, 1, 7]⟩
       PublicKey := ⟨[48, 1, 9]⟩
       PrivateKeyPKCS8Bytes := [48, 1, 7]
       PublicKeyPKIXBytes := [48, 1, 9] } : RSAKeyPair).PrivateKeyPKCS8Bytes
        = MarshalPKCS8PrivateKey (RsaPrivateKey.mk [48, 1, 7]) ∧
    ({ PrivateKey := ⟨[48, 1, 7]⟩
       PublicKey := ⟨[48, 1, 9]⟩
       PrivateKeyPKCS8Bytes := [48, 1, 7]
       PublicKeyPKIXBytes := [48, 1, 9] } : RSAKeyPair).PublicKeyPKIXBytes
        = MarshalPKIXPublicKey (RsaPublicKey.mk [48, 1, 9]) :=
  (keyPair_serialized_invariant ⟨[48, 1, 7]⟩ ⟨[48, 1, 9]⟩ [] [] [] []
    { PrivateKey := ⟨[48, 1, 7]⟩
      PublicKey := ⟨[48, 1, 9]⟩
      PrivateKeyPKCS8Bytes := [48, 1, 7]
      PublicKeyPKIXBytes := [48, 1, 9] }).1 rfl

end Icrypto
